import Mathlib

/-! Shallow embedding of the Bonnard SDK (TypeScript) query-translation and
token-lifecycle core (src/client.ts, src/query.ts), together with proofs of
the specification claims.  JavaScript objects are modelled as association
lists in key-insertion order, JavaScript numbers as exact rationals, and the
strings flowing through the JSON/base64 pipeline as lists of code units. -/

namespace BonnardSDK

/-- JSON-like value built by the query translator (the JS object literals
sent over the wire).  Objects are association lists in key-insertion order. -/
inductive JVal where
  | str (s : String)
  | num (q : ℚ)
  | arr (xs : List JVal)
  | obj (fields : List (String × JVal))

/-- Filter from types.ts: a dimension reference, an operator (one of the
string literals equals/notEquals/contains/gt/gte/lt/lte, modelled as a
string), and a list of string-or-number comparison values. -/
structure Filter where
  dimension : String
  operator : String
  values : List JVal

/-- TimeDimension from types.ts. The dateRange is a string or a two-element
string pair, modelled as a JVal. -/
structure TimeDimension where
  dimension : String
  granularity : Option String
  dateRange : Option JVal

/-- QueryOptions from types.ts, including the optional cube name consumed by
buildCubeQuery (the client casts to QueryOptions with a cube field in the
short-name branch).  orderBy is a JS object, modelled as its entry list in
insertion order.  limit is a JS number. -/
structure QueryOptions where
  cube : Option String
  measures : Option (List String)
  dimensions : Option (List String)
  filters : Option (List Filter)
  timeDimension : Option TimeDimension
  orderBy : Option (List (String × String))
  limit : Option ℚ

/-- JS `s.includes(".")` on a field reference. -/
def hasDot (s : String) : Bool := s.data.any (fun ch => ch == '.')

/-- The field-name qualifier, inlined in query.ts buildCubeQuery as the
ternary `m.includes(".") ? m : cube + "." + m` (template literal). -/
def qualifyField (cube f : String) : String :=
  if hasDot f then f else cube ++ "." ++ f

/-- JS template-literal stringification of options.cube: an absent cube
stringifies to the literal text "undefined". -/
def cubeText (o : QueryOptions) : String := o.cube.getD "undefined"

/-- One guarded assignment of the JS object builders: an `if (options.x)`
block contributes its bindings when the option is present, nothing
otherwise. -/
def optSeg {β : Type} (s : Option β) (f : β → List (String × JVal)) : List (String × JVal) :=
  match s with
  | some x => f x
  | none => []

/-- query.ts buildCubeQuery: convert SDK QueryOptions into a Cube-native
query object, prefixing the cube name onto every unqualified field
reference.  Each absent optional input produces no key (the JS guards are
`if (options.measures)` etc.); limit is guarded by JS truthiness, so a
limit of 0 produces no key.  The granularity/dateRange keys of the time
dimension hold undefined in the JS object when absent and are dropped by
JSON serialization; they are modelled as omitted. -/
def buildCubeQuery (o : QueryOptions) : List (String × JVal) :=
  optSeg o.measures (fun ms =>
    [("measures", JVal.arr (ms.map (fun m => JVal.str (qualifyField (cubeText o) m))))])
  ++ optSeg o.dimensions (fun ds =>
    [("dimensions", JVal.arr (ds.map (fun d => JVal.str (qualifyField (cubeText o) d))))])
  ++ optSeg o.filters (fun fs =>
    [("filters", JVal.arr (fs.map (fun f => JVal.obj
        [("dimension", JVal.str (qualifyField (cubeText o) f.dimension)),
         ("operator", JVal.str f.operator),
         ("values", JVal.arr f.values)])))])
  ++ optSeg o.timeDimension (fun td =>
    [("timeDimensions", JVal.arr [JVal.obj
        ([("dimension", JVal.str (qualifyField (cubeText o) td.dimension))]
         ++ optSeg td.granularity (fun g => [("granularity", JVal.str g)])
         ++ optSeg td.dateRange (fun r => [("dateRange", r)]))])])
  ++ optSeg o.orderBy (fun ob =>
    [("order", JVal.arr (ob.map (fun p => JVal.arr [JVal.str (qualifyField (cubeText o) p.1), JVal.str p.2])))])
  ++ optSeg o.limit (fun l => if l ≠ 0 then [("limit", JVal.num l)] else [])

/-- client.ts buildNativeQuery: build a Cube-native query from QueryOptions
that already use fully-qualified names.  Filters are emitted with the key
member; no qualification is applied anywhere. -/
def buildNativeQuery (o : QueryOptions) : List (String × JVal) :=
  optSeg o.measures (fun ms => [("measures", JVal.arr (ms.map JVal.str))])
  ++ optSeg o.dimensions (fun ds => [("dimensions", JVal.arr (ds.map JVal.str))])
  ++ optSeg o.filters (fun fs =>
    [("filters", JVal.arr (fs.map (fun f => JVal.obj
        [("member", JVal.str f.dimension),
         ("operator", JVal.str f.operator),
         ("values", JVal.arr f.values)])))])
  ++ optSeg o.timeDimension (fun td =>
    [("timeDimensions", JVal.arr [JVal.obj
        ([("dimension", JVal.str td.dimension)]
         ++ optSeg td.granularity (fun g => [("granularity", JVal.str g)])
         ++ optSeg td.dateRange (fun r => [("dateRange", r)]))])])
  ++ optSeg o.orderBy (fun ob =>
    [("order", JVal.arr (ob.map (fun p => JVal.arr [JVal.str p.1, JVal.str p.2])))])
  ++ optSeg o.limit (fun l => if l ≠ 0 then [("limit", JVal.num l)] else [])

/-- query.ts (older revision, part_000) toCubeQuery: identical translation
of already-qualified QueryOptions, filters emitted with the key member. -/
def toCubeQuery (o : QueryOptions) : List (String × JVal) :=
  optSeg o.measures (fun ms => [("measures", JVal.arr (ms.map JVal.str))])
  ++ optSeg o.dimensions (fun ds => [("dimensions", JVal.arr (ds.map JVal.str))])
  ++ optSeg o.filters (fun fs =>
    [("filters", JVal.arr (fs.map (fun f => JVal.obj
        [("member", JVal.str f.dimension),
         ("operator", JVal.str f.operator),
         ("values", JVal.arr f.values)])))])
  ++ optSeg o.timeDimension (fun td =>
    [("timeDimensions", JVal.arr [JVal.obj
        ([("dimension", JVal.str td.dimension)]
         ++ optSeg td.granularity (fun g => [("granularity", JVal.str g)])
         ++ optSeg td.dateRange (fun r => [("dateRange", r)]))])])
  ++ optSeg o.orderBy (fun ob =>
    [("order", JVal.arr (ob.map (fun p => JVal.arr [JVal.str p.1, JVal.str p.2])))])
  ++ optSeg o.limit (fun l => if l ≠ 0 then [("limit", JVal.num l)] else [])

/-- Key access in a JS-object association list (first binding wins; the
translator never emits duplicate keys). -/
def jKey (k : String) : List (String × JVal) → Option JVal
  | [] => none
  | p :: rest => if p.1 = k then some p.2 else jKey k rest

/-- JS `s.split(".")` over the character list: split at every dot, keeping
empty segments; the empty string yields one empty segment. -/
def splitDotAux : List Char → List (List Char)
  | [] => [[]]
  | c :: rest =>
    if c = '.' then [] :: splitDotAux rest
    else
      match splitDotAux rest with
      | seg :: segs => (c :: seg) :: segs
      | [] => [[c]]

def jsSplitDot (s : String) : List String := (splitDotAux s.data).map String.mk

/-- JS `key.split(".").pop()`: the final dot-separated segment, applied only
when the key contains a dot. -/
def simpleName (k : String) : String :=
  if hasDot k then (jsSplitDot k).getLastD k else k

/-- JS property assignment `o[k] = v` on an object: an existing key keeps
its position and gets the new value, a fresh key is appended. -/
def jsSet (o : List (String × JVal)) (k : String) (v : JVal) : List (String × JVal) :=
  if o.any (fun q => q.1 == k) then
    o.map (fun q => if q.1 == k then (k, v) else q)
  else o ++ [(k, v)]

/-- query.ts simplifyResult, one row: build a fresh object assigning each
entry under its simplified key, in entry order. -/
def simplifyRow (row : List (String × JVal)) : List (String × JVal) :=
  row.foldl (fun acc p => jsSet acc (simpleName p.1) p.2) []

/-- query.ts simplifyResult: simplify response keys by removing the cube
prefix from every row. -/
def simplifyResult (data : List (List (String × JVal))) : List (List (String × JVal)) :=
  data.map simplifyRow

/-- Every field reference appearing in a QueryOptions value: measures,
dimensions, filter dimensions, the time-dimension field, and order keys. -/
def fieldRefsOf (o : QueryOptions) : List String :=
  o.measures.getD [] ++ o.dimensions.getD []
  ++ (o.filters.getD []).map (fun f => f.dimension)
  ++ (match o.timeDimension with | some td => [td.dimension] | none => [])
  ++ (o.orderBy.getD []).map (fun p => p.1)

/-- Modelled from the spec: isCubeNativeFormat is imported by client.ts from
query.js but its definition is not under src/.  Spec 4.2 defines the
native shape as "all referenced fields already fully qualified (no cube
name needed)" and the detection rule treats a description as native-shaped
when no cube name is present; the caller's subsequent
`if (!options.cube) throw` shows detection must also inspect the field
references, so a description is native-shaped when it has no cube name and
every referenced field is already qualified. -/
def isCubeNativeFormat (o : QueryOptions) : Bool :=
  o.cube.isNone && (fieldRefsOf o).all hasDot

/-- client.ts query, translation stage (everything before the network
request): pick the branch via isCubeNativeFormat; in the short-name branch a
missing cube name raises the configuration error, otherwise buildCubeQuery
runs.  A returned error means no query object is ever handed to the request
executor, i.e. the failure precedes any network access. -/
def queryTranslate (o : QueryOptions) : Except String (List (String × JVal)) :=
  if isCubeNativeFormat o then Except.ok (buildNativeQuery o)
  else
    match o.cube with
    | none => Except.error "QueryOptions requires \"cube\" when using short field names. Either set \"cube\" or use fully-qualified names (e.g. \"orders.revenue\")."
    | some _ => Except.ok (buildCubeQuery o)

/-- JSON value produced by JSON.parse inside parseJwtExpiry.  Strings and
object keys are kept as lists of code units (the bytes atob produced);
numbers are exact rationals. -/
inductive PJson where
  | null
  | bool (b : Bool)
  | num (q : ℚ)
  | str (s : List Nat)
  | arr (xs : List PJson)
  | obj (fields : List (List Nat × PJson))

/-- JSON insignificant whitespace: space, tab, line feed, carriage return. -/
def jsonWs (c : Nat) : Bool := c = 32 || c = 9 || c = 10 || c = 13

def skipWs (input : List Nat) : List Nat := input.dropWhile jsonWs

def isDigitU (c : Nat) : Bool := 48 ≤ c && c ≤ 57

def hexVal (c : Nat) : Option Nat :=
  if 48 ≤ c && c ≤ 57 then some (c - 48)
  else if 65 ≤ c && c ≤ 70 then some (c - 55)
  else if 97 ≤ c && c ≤ 102 then some (c - 87)
  else none

/-- JSON string body after the opening quote: plain code units, the short
escapes, and a four-hex-digit escape; raw control characters are
rejected. Returns the decoded units and the input after the closing quote. -/
def parseStrUnits : List Nat → Option (List Nat × List Nat)
  | [] => none
  | 34 :: rest => some ([], rest)
  | 92 :: rest =>
    match rest with
    | 34 :: r => (parseStrUnits r).map (fun p => (34 :: p.1, p.2))
    | 92 :: r => (parseStrUnits r).map (fun p => (92 :: p.1, p.2))
    | 47 :: r => (parseStrUnits r).map (fun p => (47 :: p.1, p.2))
    | 98 :: r => (parseStrUnits r).map (fun p => (8 :: p.1, p.2))
    | 102 :: r => (parseStrUnits r).map (fun p => (12 :: p.1, p.2))
    | 110 :: r => (parseStrUnits r).map (fun p => (10 :: p.1, p.2))
    | 114 :: r => (parseStrUnits r).map (fun p => (13 :: p.1, p.2))
    | 116 :: r => (parseStrUnits r).map (fun p => (9 :: p.1, p.2))
    | 117 :: h1 :: h2 :: h3 :: h4 :: r =>
      match hexVal h1, hexVal h2, hexVal h3, hexVal h4 with
      | some a, some b, some c, some d =>
        (parseStrUnits r).map (fun p => ((a * 4096 + b * 256 + c * 16 + d) :: p.1, p.2))
      | _, _, _, _ => none
    | _ => none
  | c :: rest =>
    if c < 32 then none
    else (parseStrUnits rest).map (fun p => (c :: p.1, p.2))

def digitsVal (ds : List Nat) : Nat := ds.foldl (fun a d => a * 10 + (d - 48)) 0

/-- One or more decimal digits. -/
def parseDigits1 (input : List Nat) : Option (List Nat × List Nat) :=
  match input.takeWhile isDigitU with
  | [] => none
  | ds => some (ds, input.dropWhile isDigitU)

/-- JSON integer part: a single zero, or a nonzero digit followed by digits. -/
def parseIntPart : List Nat → Option (List Nat × List Nat)
  | 48 :: rest => some ([48], rest)
  | c :: rest =>
    if isDigitU c then some (c :: rest.takeWhile isDigitU, rest.dropWhile isDigitU)
    else none
  | [] => none

/-- Optional JSON fraction part, returning its digits. -/
def parseFracPart : List Nat → Option (List Nat × List Nat)
  | 46 :: rest =>
    match parseDigits1 rest with
    | some (ds, r) => some (ds, r)
    | none => none
  | input => some ([], input)

/-- Optional JSON exponent part, returning the signed exponent. -/
def parseExpSuffix (input : List Nat) : Option (Int × List Nat) :=
  match input with
  | 101 :: rest => parseExpTail rest
  | 69 :: rest => parseExpTail rest
  | _ => some (0, input)
where
  parseExpTail : List Nat → Option (Int × List Nat)
    | 43 :: r => (parseDigits1 r).map (fun p => ((digitsVal p.1 : Int), p.2))
    | 45 :: r => (parseDigits1 r).map (fun p => (-(digitsVal p.1 : Int), p.2))
    | r => (parseDigits1 r).map (fun p => ((digitsVal p.1 : Int), p.2))

/-- JSON number token, evaluated exactly as a rational. -/
def parseNumber (input : List Nat) : Option (ℚ × List Nat) :=
  let sgnStrip : Bool × List Nat :=
    match input with
    | 45 :: r => (true, r)
    | _ => (false, input)
  match parseIntPart sgnStrip.2 with
  | none => none
  | some (ids, i2) =>
    match parseFracPart i2 with
    | none => none
    | some (fds, i3) =>
      match parseExpSuffix i3 with
      | none => none
      | some (e, i4) =>
        let m : Nat := digitsVal (ids ++ fds)
        let scale : Int := e - fds.length
        let mag : ℚ :=
          if 0 ≤ scale then (m : ℚ) * (10 : ℚ) ^ scale.toNat
          else (m : ℚ) / (10 : ℚ) ^ (-scale).toNat
        some (if sgnStrip.1 then -mag else mag, i4)

mutual

/-- JSON value, fuel-indexed recursive descent.  The fuel only bounds the
nesting depth; jsonParse supplies more fuel than any input can consume. -/
def parseVal : Nat → List Nat → Option (PJson × List Nat)
  | 0, _ => none
  | fuel + 1, input =>
    match skipWs input with
    | [] => none
    | c :: rest =>
      if c = 34 then (parseStrUnits rest).map (fun p => (PJson.str p.1, p.2))
      else if c = 91 then
        match skipWs rest with
        | 93 :: r2 => some (PJson.arr [], r2)
        | r2 => (parseElems fuel r2).map (fun p => (PJson.arr p.1, p.2))
      else if c = 123 then
        match skipWs rest with
        | 125 :: r2 => some (PJson.obj [], r2)
        | r2 => (parseMembers fuel r2).map (fun p => (PJson.obj p.1, p.2))
      else if c = 116 then
        match rest with
        | 114 :: 117 :: 101 :: r => some (PJson.bool true, r)
        | _ => none
      else if c = 102 then
        match rest with
        | 97 :: 108 :: 115 :: 101 :: r => some (PJson.bool false, r)
        | _ => none
      else if c = 110 then
        match rest with
        | 117 :: 108 :: 108 :: r => some (PJson.null, r)
        | _ => none
      else if c = 45 || isDigitU c then
        (parseNumber (c :: rest)).map (fun p => (PJson.num p.1, p.2))
      else none

/-- Array elements after the opening bracket (nonempty case). -/
def parseElems : Nat → List Nat → Option (List PJson × List Nat)
  | 0, _ => none
  | fuel + 1, input =>
    match parseVal fuel input with
    | none => none
    | some (v, rest) =>
      match skipWs rest with
      | 44 :: r2 =>
        match parseElems fuel r2 with
        | some (vs, r3) => some (v :: vs, r3)
        | none => none
      | 93 :: r2 => some ([v], r2)
      | _ => none

/-- Object members after the opening brace (nonempty case). -/
def parseMembers : Nat → List Nat → Option (List (List Nat × PJson) × List Nat)
  | 0, _ => none
  | fuel + 1, input =>
    match skipWs input with
    | 34 :: rest =>
      match parseStrUnits rest with
      | none => none
      | some (k, r1) =>
        match skipWs r1 with
        | 58 :: r2 =>
          match parseVal fuel r2 with
          | none => none
          | some (v, r3) =>
            match skipWs r3 with
            | 44 :: r4 =>
              match parseMembers fuel r4 with
              | some (ms, r5) => some ((k, v) :: ms, r5)
              | none => none
            | 125 :: r4 => some ([(k, v)], r4)
            | _ => none
        | _ => none
    | _ => none

end

/-- JSON.parse on a list of code units: one value, optionally surrounded by
whitespace, and nothing else. -/
def jsonParse (units : List Nat) : Option PJson :=
  match parseVal (units.length + 1) units with
  | some (v, rest) => if skipWs rest = [] then some v else none
  | none => none

/-- ASCII whitespace stripped by forgiving-base64: tab, LF, FF, CR, space. -/
def asciiWs (c : Nat) : Bool := c = 9 || c = 10 || c = 12 || c = 13 || c = 32

/-- Value of one base64 alphabet character. -/
def b64CharVal (c : Nat) : Option Nat :=
  if 65 ≤ c && c ≤ 90 then some (c - 65)
  else if 97 ≤ c && c ≤ 122 then some (c - 71)
  else if 48 ≤ c && c ≤ 57 then some (c + 4)
  else if c = 43 then some 62
  else if c = 47 then some 63
  else none

/-- Reassemble 6-bit groups into bytes; a trailing group of two or three
characters yields one or two bytes with excess bits discarded. -/
def sextetsToBytes : List Nat → List Nat
  | a :: b :: c :: d :: rest =>
    (a * 4 + b / 16) :: ((b % 16) * 16 + c / 4) :: ((c % 4) * 64 + d) :: sextetsToBytes rest
  | [a, b] => [a * 4 + b / 16]
  | [a, b, c] => [a * 4 + b / 16, (b % 16) * 16 + c / 4]
  | _ => []

/-- JS atob (forgiving-base64 decode) over code units: strip ASCII
whitespace, strip up to two trailing padding characters when the length is a
multiple of four, reject a length congruent to one modulo four or any
character outside the alphabet, then reassemble bytes. -/
def atobDecode (input : List Nat) : Option (List Nat) :=
  let s1 := input.filter (fun c => !asciiWs c)
  let s2 :=
    if s1.length % 4 = 0 then
      match s1.reverse with
      | 61 :: 61 :: r => r.reverse
      | 61 :: r => r.reverse
      | _ => s1
    else s1
  if s2.length % 4 = 1 then none
  else
    match s2.mapM b64CharVal with
    | some sextets => some (sextetsToBytes sextets)
    | none => none

/-- Code units of a Lean string (the tokens involved are ASCII). -/
def strUnits (s : String) : List Nat := s.data.map Char.toNat

/-- The base64url fixup in parseJwtExpiry: replace every - by + and every
_ by / in the payload segment. -/
def b64urlToB64 (s : String) : List Nat :=
  (strUnits s).map (fun c => if c = 45 then 43 else if c = 95 then 47 else c)

/-- Decode a JWT payload segment: base64url fixup, atob, then JSON.parse on
the decoded bytes.  none models any thrown and swallowed exception. -/
def jwtPayloadJson (p : String) : Option PJson :=
  match atobDecode (b64urlToB64 p) with
  | some bytes => jsonParse bytes
  | none => none

/-- The code units of the property name exp. -/
def expKey : List Nat := [101, 120, 112]

/-- JS property access on a JSON.parse result: for duplicate keys the last
binding wins, which is what property definition during parsing produces. -/
def lastAssoc (fields : List (List Nat × PJson)) (k : List Nat) : Option PJson :=
  fields.foldl (fun acc p => if p.1 = k then some p.2 else acc) none

/-- The numeric exp claim of a decoded payload, when present. -/
def expClaimOf : PJson → Option ℚ
  | PJson.obj fs =>
    match lastAssoc fs expKey with
    | some (PJson.num q) => some q
    | _ => none
  | _ => none

/-- client.ts parseJwtExpiry: the exp claim of the base64url-decoded middle
segment as a millisecond timestamp, or 0 if unparseable (wrong number of
segments, undecodable payload, invalid JSON, or no numeric exp). -/
def parseJwtExpiry (t : String) : ℚ :=
  match jsSplitDot t with
  | [_, p, _] =>
    match jwtPayloadJson p with
    | some j =>
      match expClaimOf j with
      | some q => q * 1000
      | none => 0
    | none => 0
  | _ => 0

/-- The refresh buffer: tokens are renewed 60 s before expiry. -/
def REFRESH_BUFFER_MS : ℚ := 60000

/-- The token cache of one client instance: cachedToken and cachedExpiry. -/
structure TokenCache where
  cachedToken : Option String
  cachedExpiry : ℚ
deriving DecidableEq

/-- Cache state at client construction: cachedToken null, cachedExpiry 0. -/
def initialCache : TokenCache := ⟨none, 0⟩

/-- One getToken call in callback mode, as a pure transition: given the
cache state, the clock value and the token the callback would produce,
return the token handed to the caller, the new cache state, and whether the
callback was invoked (it is invoked at most once per call).  The JS guard
`if (cachedToken && cachedExpiry - REFRESH_BUFFER_MS > now)` tests the
cached token for truthiness, so an empty cached string never hits. -/
def getTokenCallback (st : TokenCache) (now : ℤ) (fetched : String) :
    String × TokenCache × Bool :=
  match st.cachedToken with
  | some t =>
    if t ≠ "" ∧ st.cachedExpiry - REFRESH_BUFFER_MS > (now : ℚ) then (t, st, false)
    else (fetched, ⟨some fetched, parseJwtExpiry fetched⟩, true)
  | none => (fetched, ⟨some fetched, parseJwtExpiry fetched⟩, true)

/-- BonnardConfig: an optional static key and an optional token callback,
the callback modelled by the token it would produce on this call. -/
structure BonnardConfig where
  apiKey : Option String
  fetchToken : Option String

/-- JS truthiness of an optional string: absent and empty are falsy. -/
def optStrTruthy : Option String → Bool
  | none => false
  | some s => !(s == "")

/-- client.ts getToken: a truthy apiKey is returned directly; otherwise a
configured callback drives the cache transition; otherwise the
configuration error is thrown.  The current createClient performs no
configuration validation, so this is the first point where a missing
credential source fails, and it runs before any network request (request
awaits getToken before calling fetch). -/
def getToken (cfg : BonnardConfig) (st : TokenCache) (now : ℤ) :
    Except String (String × TokenCache × Bool) :=
  match cfg.apiKey with
  | some k =>
    if k ≠ "" then Except.ok (k, st, false)
    else
      match cfg.fetchToken with
      | some fetched => Except.ok (getTokenCallback st now fetched)
      | none => Except.error "BonnardConfig requires either apiKey or fetchToken"
  | none =>
    match cfg.fetchToken with
    | some fetched => Except.ok (getTokenCallback st now fetched)
    | none => Except.error "BonnardConfig requires either apiKey or fetchToken"

/-- client.ts createClient (current revision): no credential validation is
performed at construction; the configuration is simply captured.  (An older
revision bundled in the repository rejected a configuration with neither or
both sources; the current one does not.) -/
def createClient (cfg : BonnardConfig) : Except String BonnardConfig := Except.ok cfg

/-- A string JVal holding a qualified (dot-containing) field reference. -/
def jStrQualified : JVal → Bool
  | JVal.str s => hasDot s
  | _ => false

/-- Every dimension-or-member binding of a filter object is qualified. -/
def filterEntryQualified : JVal → Bool
  | JVal.obj fs => fs.all (fun q => if q.1 = "dimension" ∨ q.1 = "member" then jStrQualified q.2 else true)
  | _ => false

/-- The dimension binding of a time-dimension object is qualified. -/
def tdEntryQualified : JVal → Bool
  | JVal.obj fs => fs.all (fun q => if q.1 = "dimension" then jStrQualified q.2 else true)
  | _ => false

/-- The field component of an order pair is qualified. -/
def orderEntryQualified : JVal → Bool
  | JVal.arr (k :: _) => jStrQualified k
  | _ => false

/-- One top-level binding of a native query object satisfies the
all-fields-qualified invariant. -/
def entryQualified (p : String × JVal) : Bool :=
  if p.1 = "measures" ∨ p.1 = "dimensions" then
    match p.2 with
    | JVal.arr xs => xs.all jStrQualified
    | _ => false
  else if p.1 = "filters" then
    match p.2 with
    | JVal.arr xs => xs.all filterEntryQualified
    | _ => false
  else if p.1 = "timeDimensions" then
    match p.2 with
    | JVal.arr xs => xs.all tdEntryQualified
    | _ => false
  else if p.1 = "order" then
    match p.2 with
    | JVal.arr xs => xs.all orderEntryQualified
    | _ => false
  else true

/-- The all-fields-qualified invariant over a native query object: every
field reference it contains includes the qualification separator. -/
def nativeQueryQualified (q : List (String × JVal)) : Bool := q.all entryQualified

attribute [local semireducible] Rat.mul Rat.add Rat.sub

theorem hasDot_append_dot (c x : String) : hasDot (c ++ "." ++ x) = true := by
  unfold hasDot
  rw [String.data_append, String.data_append]
  simp [List.any_append]

theorem hasDot_qualifyField (c x : String) : hasDot (qualifyField c x) = true := by
  unfold qualifyField
  by_cases h : hasDot x = true
  · simp [h]
  · simp only [Bool.not_eq_true] at h
    simp [h, hasDot_append_dot]

theorem jKey_append (k : String) (l1 l2 : List (String × JVal)) :
    jKey k (l1 ++ l2) = (jKey k l1).or (jKey k l2) := by
  induction l1 with
  | nil => simp [jKey]
  | cons p rest ih =>
    by_cases h : p.1 = k <;> simp [jKey, h, ih]

theorem jsSet_fresh (o : List (String × JVal)) (k : String) (v : JVal)
    (h : ∀ q ∈ o, q.1 ≠ k) : jsSet o k v = o ++ [(k, v)] := by
  unfold jsSet
  rw [if_neg]
  simp only [List.any_eq_true, beq_iff_eq, not_exists, not_and]
  exact fun q hq => h q hq

theorem simplifyRow_foldl (row : List (String × JVal)) (acc : List (String × JVal))
    (hfresh : ∀ p ∈ row, ∀ q ∈ acc, simpleName p.1 ≠ q.1)
    (hnd : (row.map (fun p => simpleName p.1)).Nodup) :
    row.foldl (fun a p => jsSet a (simpleName p.1) p.2) acc
      = acc ++ row.map (fun p => (simpleName p.1, p.2)) := by
  induction row generalizing acc with
  | nil => simp
  | cons p rest ih =>
    simp only [List.foldl_cons, List.map_cons]
    rw [jsSet_fresh _ _ _ (fun q hq => Ne.symm (hfresh p (by simp) q hq))]
    rw [ih]
    · simp
    · intro p' hp' q hq
      rcases List.mem_append.mp hq with hacc | hnew
      · exact hfresh p' (by simp [hp']) q hacc
      · have hq1 : q.1 = simpleName p.1 := by
          simp only [List.mem_singleton] at hnew
          rw [hnew]


        rw [hq1]
        have hni := (List.nodup_cons.mp hnd).1
        intro hcontra
        apply hni
        show simpleName p.1 ∈ List.map (fun r => simpleName r.1) rest
        rw [← hcontra]
        exact List.mem_map_of_mem (fun r => simpleName r.1) hp'
    · exact (List.nodup_cons.mp hnd).2

/-- C7: translating the query description with cube orders, measures
[revenue], orderBy revenue desc and limit 10 yields exactly the native query
[measures [orders.revenue], order [[orders.revenue, desc]], limit 10], with
no filters key and no timeDimensions key present. -/
theorem C7_translate_orders_example :
    buildCubeQuery ⟨some "orders", some ["revenue"], none, none, none, some [("revenue", "desc")], some 10⟩ =
      [("measures", JVal.arr [JVal.str "orders.revenue"]),
       ("order", JVal.arr [JVal.arr [JVal.str "orders.revenue", JVal.str "desc"]]),
       ("limit", JVal.num 10)] ∧
    jKey "filters" (buildCubeQuery ⟨some "orders", some ["revenue"], none, none, none, some [("revenue", "desc")], some 10⟩) = none ∧
    jKey "timeDimensions" (buildCubeQuery ⟨some "orders", some ["revenue"], none, none, none, some [("revenue", "desc")], some 10⟩) = none :=
  ⟨rfl, rfl, rfl⟩

/-- C9: the field-name qualifier is idempotent, returns an already-qualified
reference unchanged, and otherwise prepends the cube name and separator. -/
theorem C9_qualifyField_idempotent (x c : String) :
    qualifyField c (qualifyField c x) = qualifyField c x ∧
    (hasDot x = true → qualifyField c x = x) ∧
    (hasDot x = false → qualifyField c x = c ++ "." ++ x) := by
  refine ⟨?_, ?_, ?_⟩
  · by_cases hx : hasDot x = true
    · simp [qualifyField, hx]
    · simp only [Bool.not_eq_true] at hx
      simp [qualifyField, hx, hasDot_append_dot]
  · intro hx
    simp [qualifyField, hx]
  · intro hx
    simp [qualifyField, hx]

theorem C9_qualifyField_idempotent_witness :
    hasDot "orders.revenue" = true ∧ qualifyField "orders" "orders.revenue" = "orders.revenue" ∧
    hasDot "revenue" = false ∧ qualifyField "orders" "revenue" = "orders" ++ "." ++ "revenue" :=
  ⟨by decide, (C9_qualifyField_idempotent "orders.revenue" "orders").2.1 (by decide),
   by decide, (C9_qualifyField_idempotent "revenue" "orders").2.2 (by decide)⟩

/-- C10: a limit supplied as 0 is JS-falsy, so the translated query carries
no limit key at all and equals the translation of the same options with the
limit absent; this holds for buildCubeQuery and for the older revision's
toCubeQuery alike. -/
theorem C10_limit_zero_omitted (cube : Option String) (ms ds : Option (List String))
    (fl : Option (List Filter)) (td : Option TimeDimension) (ob : Option (List (String × String))) :
    buildCubeQuery ⟨cube, ms, ds, fl, td, ob, some 0⟩ = buildCubeQuery ⟨cube, ms, ds, fl, td, ob, none⟩ ∧
    jKey "limit" (buildCubeQuery ⟨cube, ms, ds, fl, td, ob, some 0⟩) = none ∧
    toCubeQuery ⟨cube, ms, ds, fl, td, ob, some 0⟩ = toCubeQuery ⟨cube, ms, ds, fl, td, ob, none⟩ ∧
    jKey "limit" (toCubeQuery ⟨cube, ms, ds, fl, td, ob, some 0⟩) = none := by
  refine ⟨by simp [buildCubeQuery, cubeText, optSeg], ?_, by simp [toCubeQuery, optSeg], ?_⟩
  · rcases ms <;> rcases ds <;> rcases fl <;> rcases td <;> rcases ob <;>
      simp [buildCubeQuery, cubeText, optSeg, jKey_append, jKey]
  · rcases ms <;> rcases ds <;> rcases fl <;> rcases td <;> rcases ob <;>
      simp [toCubeQuery, optSeg, jKey_append, jKey]

/-- C1 counterexample: in the short-name branch the translator emits each
filter with the keys dimension, operator, values; the filter object carries
no member key at all, refuting the claim that both branches emit
member/operator/values. -/
theorem C1_filters_member_key_counterexample :
    buildCubeQuery ⟨some "orders", none, none, some [⟨"status", "equals", [JVal.str "completed"]⟩], none, none, none⟩ =
      [("filters", JVal.arr [JVal.obj
        [("dimension", JVal.str "orders.status"),
         ("operator", JVal.str "equals"),
         ("values", JVal.arr [JVal.str "completed"])]])] ∧
    jKey "member" [("dimension", JVal.str "orders.status"), ("operator", JVal.str "equals"),
      ("values", JVal.arr [JVal.str "completed"])] = none ∧
    jKey "dimension" [("dimension", JVal.str "orders.status"), ("operator", JVal.str "equals"),
      ("values", JVal.arr [JVal.str "completed"])] = some (JVal.str "orders.status") :=
  ⟨rfl, rfl, rfl⟩

/-- C1 amended: the native-shaped branch emits each filter as an object with
keys member (the filter dimension), operator and values copied from the
input; the short-name branch instead emits keys dimension (the qualified
filter dimension), operator and values. -/
theorem C1_filters_key_shape (o : QueryOptions) (fs : List Filter) (c : String)
    (hf : o.filters = some fs) (hc : o.cube = some c) :
    jKey "filters" (buildNativeQuery o) =
      some (JVal.arr (fs.map (fun f => JVal.obj
        [("member", JVal.str f.dimension),
         ("operator", JVal.str f.operator),
         ("values", JVal.arr f.values)]))) ∧
    jKey "filters" (buildCubeQuery o) =
      some (JVal.arr (fs.map (fun f => JVal.obj
        [("dimension", JVal.str (qualifyField c f.dimension)),
         ("operator", JVal.str f.operator),
         ("values", JVal.arr f.values)]))) := by
  obtain ⟨cube, ms, ds, fl, td, ob, lim⟩ := o
  simp only at hf hc
  subst hf
  subst hc
  constructor <;> rcases ms <;> rcases ds <;>
    simp [buildNativeQuery, buildCubeQuery, cubeText, optSeg, jKey_append, jKey]

theorem C1_filters_key_shape_witness :
    jKey "filters" (buildNativeQuery ⟨some "orders", none, none, some [⟨"orders.status", "equals", [JVal.str "completed"]⟩], none, none, none⟩) =
      some (JVal.arr [JVal.obj
        [("member", JVal.str "orders.status"),
         ("operator", JVal.str "equals"),
         ("values", JVal.arr [JVal.str "completed"])]]) ∧
    jKey "filters" (buildCubeQuery ⟨some "orders", none, none, some [⟨"orders.status", "equals", [JVal.str "completed"]⟩], none, none, none⟩) =
      some (JVal.arr [JVal.obj
        [("dimension", JVal.str "orders.status"),
         ("operator", JVal.str "equals"),
         ("values", JVal.arr [JVal.str "completed"])]]) :=
  C1_filters_key_shape ⟨some "orders", none, none, some [⟨"orders.status", "equals", [JVal.str "completed"]⟩], none, none, none⟩
    [⟨"orders.status", "equals", [JVal.str "completed"]⟩] "orders" rfl rfl

/-- C8 counterexample: two qualified keys that collapse to the same short
name collide; the later entry overwrites the earlier one, so the first value
is not passed through and the simplified row is shorter than the input row,
refuting the claim's universal per-key description. -/
theorem C8_simplify_collision_counterexample :
    simplifyResult [[("a.x", JVal.num 1), ("b.x", JVal.num 2)]] = [[("x", JVal.num 2)]] ∧
    ((simplifyResult [[("a.x", JVal.num 1), ("b.x", JVal.num 2)]]).getD 0 []).length ≠ 2 :=
  ⟨rfl, by decide⟩

/-- C8 amended: the simplifier always preserves the number of rows; on any
row whose simplified key names are pairwise distinct it replaces each key by
its final dot segment (keys without a dot unchanged) and passes every value
through unchanged, in order; a row with no qualified keys maps to itself;
and the concrete orders example simplifies as stated. -/
theorem C8_simplify_rows (rows : List (List (String × JVal))) (row : List (String × JVal))
    (hnd : (row.map (fun p => simpleName p.1)).Nodup) :
    (simplifyResult rows).length = rows.length ∧
    simplifyRow row = row.map (fun p => (simpleName p.1, p.2)) ∧
    (row.all (fun p => !hasDot p.1) = true → simplifyRow row = row) ∧
    simplifyResult [[("orders.revenue", JVal.num 100), ("orders.count", JVal.num 2)]] =
      [[("revenue", JVal.num 100), ("count", JVal.num 2)]] := by
  have hmap : simplifyRow row = row.map (fun p => (simpleName p.1, p.2)) := by
    unfold simplifyRow
    rw [simplifyRow_foldl row [] (by simp) hnd]
    simp
  refine ⟨by simp [simplifyResult], hmap, ?_, rfl⟩
  intro hq
  rw [hmap]
  have hid : ∀ p ∈ row, (fun p => (simpleName p.1, p.2)) p = id p := by
    intro p hp
    have hnd2 : hasDot p.1 = false := by
      have := List.all_eq_true.mp hq p hp
      simpa using this
    simp [simpleName, hnd2]
  rw [List.map_congr_left hid]
  exact List.map_id row

theorem C8_simplify_rows_witness :
    simplifyRow [("orders.revenue", JVal.num 100), ("orders.count", JVal.num 2)] =
      [("revenue", JVal.num 100), ("count", JVal.num 2)] ∧
    simplifyRow [("plain", JVal.num 5)] = [("plain", JVal.num 5)] := by
  constructor
  · have h := (C8_simplify_rows [] [("orders.revenue", JVal.num 100), ("orders.count", JVal.num 2)] (by decide)).2.1
    rw [h]
    rfl
  · exact (C8_simplify_rows [] [("plain", JVal.num 5)] (by decide)).2.2.1 (by decide)

/-- Unparseable tokens decode to expiry 0, in particular the empty string. -/
theorem parseJwtExpiry_empty : parseJwtExpiry "" = 0 := by decide

/-- C2: in callback mode, a getToken call at time now returns the cached
token with the cache untouched and no callback invocation when a cached
token exists and cachedExpiry minus the 60000 ms buffer exceeds now;
otherwise it invokes the callback once, caches the returned token with its
decoded expiry, and returns the fresh token; and the decoded expiry of a
token whose middle segment carries a numeric exp claim (in seconds) is that
claim converted to milliseconds.  The hypotheses record the ambient frame:
the clock is nonnegative, and in callback mode the cached expiry was always
stored by the same assignment that cached the token. -/
theorem C2_getToken_cache_behavior (st : TokenCache) (now : ℤ) (fetched t : String)
    (hnow : 0 ≤ now)
    (hinv : st.cachedToken = some t → st.cachedExpiry = parseJwtExpiry t) :
    ((st.cachedToken = some t ∧ st.cachedExpiry - REFRESH_BUFFER_MS > (now : ℚ)) →
        getTokenCallback st now fetched = (t, st, false)) ∧
    ((st.cachedToken = none ∨
        (st.cachedToken = some t ∧ ¬ st.cachedExpiry - REFRESH_BUFFER_MS > (now : ℚ))) →
        getTokenCallback st now fetched =
          (fetched, ⟨some fetched, parseJwtExpiry fetched⟩, true)) ∧
    (∀ a p b j e, jsSplitDot fetched = [a, p, b] → jwtPayloadJson p = some j →
        expClaimOf j = some e → parseJwtExpiry fetched = e * 1000) := by
  obtain ⟨ct, ce⟩ := st
  refine ⟨?_, ?_, ?_⟩
  · rintro ⟨hsome, hgt⟩
    simp only at hsome hgt
    subst hsome
    have ht : t ≠ "" := by
      intro h0
      have he := hinv rfl
      simp only at he
      subst h0
      rw [he, parseJwtExpiry_empty] at hgt
      have hn : (0 : ℚ) ≤ (now : ℚ) := by exact_mod_cast hnow
      rw [REFRESH_BUFFER_MS] at hgt
      linarith
    simp [getTokenCallback, ht, hgt]
  · rintro (hnone | ⟨hsome, hle⟩)
    · simp only at hnone
      subst hnone
      simp [getTokenCallback]
    · simp only at hsome hle
      subst hsome
      simp [getTokenCallback, hle]
  · intro a p b j e hsplit hpj he
    unfold parseJwtExpiry
    rw [hsplit]
    simp [hpj, he]

theorem C2_getToken_cache_behavior_witness :
    getTokenCallback ⟨some "h.eyJleHAiOjIwMH0.s", 200000⟩ 0 "f" =
      ("h.eyJleHAiOjIwMH0.s", ⟨some "h.eyJleHAiOjIwMH0.s", 200000⟩, false) ∧
    getTokenCallback ⟨none, 0⟩ 0 "h.eyJleHAiOjIwMH0.s" =
      ("h.eyJleHAiOjIwMH0.s", ⟨some "h.eyJleHAiOjIwMH0.s", 200000⟩, true) ∧
    parseJwtExpiry "h.eyJleHAiOjIwMH0.s" = 200 * 1000 := by
  refine ⟨?_, ?_, ?_⟩
  · exact (C2_getToken_cache_behavior ⟨some "h.eyJleHAiOjIwMH0.s", 200000⟩ 0 "f"
      "h.eyJleHAiOjIwMH0.s" (by decide) (fun _ => by decide)).1 ⟨rfl, by decide⟩
  · have h := (C2_getToken_cache_behavior ⟨none, 0⟩ 0 "h.eyJleHAiOjIwMH0.s" ""
      (by decide) (fun hx => nomatch hx)).2.1 (Or.inl rfl)
    rw [h]
    have : parseJwtExpiry "h.eyJleHAiOjIwMH0.s" = 200000 := by decide
    rw [this]
  · exact (C2_getToken_cache_behavior ⟨none, 0⟩ 0 "h.eyJleHAiOjIwMH0.s" ""
      (by decide) (fun hx => nomatch hx)).2.2 "h" "eyJleHAiOjIwMH0" "s"
      (PJson.obj [(expKey, PJson.num 200)]) 200 rfl rfl rfl

/-- C4 counterexample: a configuration supplying both a static key and a
token callback is accepted, not rejected: construction succeeds and
credential retrieval returns the static key with no error and no callback
invocation, the static source silently taking precedence. -/
theorem C4_both_sources_accepted_counterexample :
    createClient ⟨some "bon_pk_key", some "tok"⟩ = Except.ok ⟨some "bon_pk_key", some "tok"⟩ ∧
    getToken ⟨some "bon_pk_key", some "tok"⟩ initialCache 0 =
      Except.ok ("bon_pk_key", initialCache, false) :=
  ⟨rfl, rfl⟩

/-- C4 amended: construction performs no credential validation; a
configuration with neither credential source fails with the configuration
error at credential retrieval, which the request executor performs before
any network call; a configuration with both sources is accepted, the static
credential taking precedence. -/
theorem C4_credential_sources (cfg : BonnardConfig) (st : TokenCache) (now : ℤ) :
    (optStrTruthy cfg.apiKey = false → cfg.fetchToken = none →
        getToken cfg st now = Except.error "BonnardConfig requires either apiKey or fetchToken") ∧
    (∀ k, cfg.apiKey = some k → k ≠ "" → getToken cfg st now = Except.ok (k, st, false)) ∧
    createClient cfg = Except.ok cfg := by
  obtain ⟨ak, ft⟩ := cfg
  refine ⟨?_, ?_, rfl⟩
  · intro hk hf
    simp only at hk hf
    subst hf
    rcases ak with _ | k
    · rfl
    · simp [optStrTruthy] at hk
      subst hk
      rfl
  · intro k hk hne
    simp only at hk
    subst hk
    simp [getToken, hne]

theorem C4_credential_sources_witness :
    getToken ⟨none, none⟩ initialCache 0 =
      Except.error "BonnardConfig requires either apiKey or fetchToken" ∧
    getToken ⟨some "bon_pk_key", none⟩ initialCache 0 =
      Except.ok ("bon_pk_key", initialCache, false) :=
  ⟨(C4_credential_sources ⟨none, none⟩ initialCache 0).1 (by decide) rfl,
   (C4_credential_sources ⟨some "bon_pk_key", none⟩ initialCache 0).2.1 "bon_pk_key" rfl (by decide)⟩

/-- C5: a token that does not split into exactly three dot-separated
segments, or whose middle segment does not base64url-decode to valid JSON,
or whose decoded payload carries no numeric exp claim, parses to expiry 0;
consequently, once such a token is cached, any later call at a nonnegative
clock refreshes (invokes the callback and returns its token) regardless of
elapsed time, and the parse failure is never surfaced: getTokenCallback is
total and still hands the callback's token to the caller. -/
theorem C5_unparseable_token_expiry_zero (t : String)
    (h : (jsSplitDot t).length ≠ 3 ∨
         (∀ a p b, jsSplitDot t = [a, p, b] → jwtPayloadJson p = none) ∨
         (∀ a p b, jsSplitDot t = [a, p, b] → ∀ j, jwtPayloadJson p = some j → expClaimOf j = none)) :
    parseJwtExpiry t = 0 ∧
    ∀ (now : ℤ), 0 ≤ now → ∀ fetched,
      getTokenCallback ⟨some t, parseJwtExpiry t⟩ now fetched =
        (fetched, ⟨some fetched, parseJwtExpiry fetched⟩, true) := by
  have h0 : parseJwtExpiry t = 0 := by
    unfold parseJwtExpiry
    rcases hs : jsSplitDot t with _ | ⟨a, _ | ⟨p, _ | ⟨b, _ | ⟨c, d⟩⟩⟩⟩
    · simp
    · simp
    · simp
    · rcases h with hlen | hmid | hexp
      · rw [hs] at hlen
        simp at hlen
      · simp [hmid a p b hs]
      · rcases hj : jwtPayloadJson p with _ | j
        · simp [hj]
        · simp [hj, hexp a p b hs j hj]
    · simp
  refine ⟨h0, ?_⟩
  intro now hnow fetched
  have hngt : ¬ parseJwtExpiry t - REFRESH_BUFFER_MS > (now : ℚ) := by
    rw [h0, REFRESH_BUFFER_MS]
    have hn : (0 : ℚ) ≤ (now : ℚ) := by exact_mod_cast hnow
    linarith
  simp [getTokenCallback, hngt]

theorem C5_unparseable_token_expiry_zero_witness :
    (jsSplitDot "abc").length ≠ 3 ∧
    parseJwtExpiry "abc" = 0 ∧
    getTokenCallback ⟨some "abc", parseJwtExpiry "abc"⟩ 0 "fresh" =
      ("fresh", ⟨some "fresh", parseJwtExpiry "fresh"⟩, true) :=
  ⟨by decide,
   (C5_unparseable_token_expiry_zero "abc" (Or.inl (by decide))).1,
   (C5_unparseable_token_expiry_zero "abc" (Or.inl (by decide))).2 0 (by decide) "fresh"⟩

/-- C3: a query description using short (unqualified) field names with no
cube name supplied is not native-shaped, so the query operation fails in the
translation stage with the configuration error explaining the required fix,
before any query object exists to send over the network. -/
theorem C3_short_names_without_cube_error (o : QueryOptions)
    (hc : o.cube = none) (hshort : (fieldRefsOf o).all hasDot = false) :
    queryTranslate o = Except.error "QueryOptions requires \"cube\" when using short field names. Either set \"cube\" or use fully-qualified names (e.g. \"orders.revenue\")." := by
  unfold queryTranslate isCubeNativeFormat
  rw [hc, hshort]
  rfl

theorem C3_short_names_without_cube_error_witness :
    queryTranslate ⟨none, some ["revenue"], none, none, none, none, none⟩ =
      Except.error "QueryOptions requires \"cube\" when using short field names. Either set \"cube\" or use fully-qualified names (e.g. \"orders.revenue\")." :=
  C3_short_names_without_cube_error ⟨none, some ["revenue"], none, none, none, none, none⟩ rfl (by decide)

theorem optSeg_none {β : Type} (f : β → List (String × JVal)) : optSeg none f = [] := rfl

theorem jKey_optSeg_none {β : Type} (k : String) (s : Option β) (f : β → List (String × JVal))
    (h : ∀ x, jKey k (f x) = none) : jKey k (optSeg s f) = none := by
  rcases s with _ | x
  · rfl
  · exact h x

theorem jKey_limit_seg (k : String) (hk : ¬ k = "limit") (lim : Option ℚ) :
    jKey k (optSeg lim (fun l => if l = 0 then [] else [("limit", JVal.num l)])) = none := by
  apply jKey_optSeg_none
  intro x
  by_cases hx : x = 0
  · rw [if_pos hx]
    rfl
  · rw [if_neg hx]
    unfold jKey
    rw [if_neg (fun hh => hk hh.symm)]
    rfl

theorem all_optSeg {β : Type} (p : String × JVal → Bool) (s : Option β)
    (f : β → List (String × JVal)) (h : ∀ x, (f x).all p = true) :
    (optSeg s f).all p = true := by
  rcases s with _ | x
  · rfl
  · exact h x

/-- C6: when a cube name is supplied, every field reference in the
translator's output (each measure, dimension, filter dimension,
time-dimension field and order key) contains the qualification separator,
and every optional part absent from the input is entirely omitted from the
output object: its key is not present at all, never bound to an empty or
null value. -/
theorem C6_cube_query_qualified_and_omits (o : QueryOptions) (c : String) (hc : o.cube = some c) :
    nativeQueryQualified (buildCubeQuery o) = true ∧
    (o.measures = none → jKey "measures" (buildCubeQuery o) = none) ∧
    (o.dimensions = none → jKey "dimensions" (buildCubeQuery o) = none) ∧
    (o.filters = none → jKey "filters" (buildCubeQuery o) = none) ∧
    (o.timeDimension = none → jKey "timeDimensions" (buildCubeQuery o) = none) ∧
    (o.orderBy = none → jKey "order" (buildCubeQuery o) = none) ∧
    (o.limit = none → jKey "limit" (buildCubeQuery o) = none) := by
  obtain ⟨cube, ms, ds, fl, td, ob, lim⟩ := o
  simp only at hc
  subst hc
  refine ⟨?_, ?_, ?_, ?_, ?_, ?_, ?_⟩
  · unfold nativeQueryQualified buildCubeQuery
    simp only [List.all_append, Bool.and_eq_true]
    refine ⟨⟨⟨⟨⟨?_, ?_⟩, ?_⟩, ?_⟩, ?_⟩, ?_⟩
    · apply all_optSeg
      intro l
      simp [entryQualified, jStrQualified, List.all_map, Function.comp, hasDot_qualifyField]
    · apply all_optSeg
      intro l
      simp [entryQualified, jStrQualified, List.all_map, Function.comp, hasDot_qualifyField]
    · apply all_optSeg
      intro l
      simp [entryQualified, filterEntryQualified, jStrQualified, List.all_map, Function.comp,
        hasDot_qualifyField, List.all_eq_true]
    · apply all_optSeg
      intro t
      rcases t with ⟨tdd, tg, tr⟩
      rcases tg with _ | g <;> rcases tr with _ | r <;>
        simp [entryQualified, tdEntryQualified, jStrQualified, optSeg, hasDot_qualifyField]
    · apply all_optSeg
      intro l
      simp [entryQualified]
      intro x a b _ hx
      subst hx
      simp [orderEntryQualified, jStrQualified, hasDot_qualifyField]
    · apply all_optSeg
      intro l
      by_cases hx : l ≠ 0
      · rw [if_pos hx]
        simp [entryQualified]
      · rw [if_neg hx]
        rfl
  · intro h
    subst h
    simp [buildCubeQuery, jKey_append, optSeg_none, jKey_optSeg_none, jKey,
      jKey_limit_seg "measures" (by decide)]
  · intro h
    subst h
    simp [buildCubeQuery, jKey_append, optSeg_none, jKey_optSeg_none, jKey,
      jKey_limit_seg "dimensions" (by decide)]
  · intro h
    subst h
    simp [buildCubeQuery, jKey_append, optSeg_none, jKey_optSeg_none, jKey,
      jKey_limit_seg "filters" (by decide)]
  · intro h
    subst h
    simp [buildCubeQuery, jKey_append, optSeg_none, jKey_optSeg_none, jKey,
      jKey_limit_seg "timeDimensions" (by decide)]
  · intro h
    subst h
    simp [buildCubeQuery, jKey_append, optSeg_none, jKey_optSeg_none, jKey,
      jKey_limit_seg "order" (by decide)]
  · intro h
    subst h
    simp [buildCubeQuery, jKey_append, optSeg_none, jKey_optSeg_none, jKey]

theorem C6_cube_query_qualified_and_omits_witness :
    nativeQueryQualified (buildCubeQuery ⟨some "orders", some ["revenue"], some ["status"],
      some [⟨"status", "equals", [JVal.str "completed"]⟩],
      some ⟨"created_at", some "month", some (JVal.arr [JVal.str "2025-01-01", JVal.str "2025-12-31"])⟩,
      some [("revenue", "desc")], some 100⟩) = true ∧
    jKey "filters" (buildCubeQuery ⟨some "orders", none, none, none, none, none, none⟩) = none ∧
    jKey "timeDimensions" (buildCubeQuery ⟨some "orders", none, none, none, none, none, none⟩) = none ∧
    jKey "order" (buildCubeQuery ⟨some "orders", none, none, none, none, none, none⟩) = none ∧
    jKey "limit" (buildCubeQuery ⟨some "orders", none, none, none, none, none, none⟩) = none :=
  ⟨(C6_cube_query_qualified_and_omits ⟨some "orders", some ["revenue"], some ["status"],
      some [⟨"status", "equals", [JVal.str "completed"]⟩],
      some ⟨"created_at", some "month", some (JVal.arr [JVal.str "2025-01-01", JVal.str "2025-12-31"])⟩,
      some [("revenue", "desc")], some 100⟩ "orders" rfl).1,
   (C6_cube_query_qualified_and_omits ⟨some "orders", none, none, none, none, none, none⟩ "orders" rfl).2.2.2.1 rfl,
   (C6_cube_query_qualified_and_omits ⟨some "orders", none, none, none, none, none, none⟩ "orders" rfl).2.2.2.2.1 rfl,
   (C6_cube_query_qualified_and_omits ⟨some "orders", none, none, none, none, none, none⟩ "orders" rfl).2.2.2.2.2.1 rfl,
   (C6_cube_query_qualified_and_omits ⟨some "orders", none, none, none, none, none, none⟩ "orders" rfl).2.2.2.2.2.2 rfl⟩

end BonnardSDK
